import Mathlib

/-!
A verification development for the request-dispatch core of the rustful HTTP
server framework (`src/server/instance.rs`).  The source file is shallowly
embedded: byte strings become `List Nat`, the pure URI parsers become Lean
functions, and the event-driven request handler becomes explicit state
passing, with runtime panics modelled as `Except.error`.
-/

namespace Rustful

/-! ## Byte strings -/

abbrev Bytes := List Nat

/-- Hexadecimal digit value, as used by the `url` crate's percent decoding. -/
def from_hex (c : Nat) : Option Nat :=
  if 48 ≤ c ∧ c ≤ 57 then some (c - 48)
  else if 65 ≤ c ∧ c ≤ 70 then some (c - 55)
  else if 97 ≤ c ∧ c ≤ 102 then some (c - 87)
  else none

/-- Permissive percent decoding of the `url` crate used by `instance.rs`
(spec §4.1): a `%` followed by two hex digits decodes to the corresponding
byte; undecodable sequences pass through as raw bytes, so decoding never
fails. -/
def percent_decode : Bytes → Bytes
  | 37 :: h :: l :: rest =>
    match from_hex h, from_hex l with
    | some hv, some lv => (16 * hv + lv) :: percent_decode rest
    | _, _ => 37 :: percent_decode (h :: l :: rest)
  | c :: rest => c :: percent_decode rest
  | [] => []

/-- Split a byte string at the first occurrence of `c`, mirroring
`path.find(c)` followed by the slices `path[..index]` and `path[index+1..]`. -/
def split_first (c : Nat) : Bytes → Option (Bytes × Bytes)
  | [] => none
  | b :: rest =>
    if b = c then some ([], rest)
    else (split_first c rest).map (fun p => (b :: p.1, p.2))

/-- `parse_fragment` from `instance.rs`: split at the first `#` (byte 35);
the part after it, if any, is the raw fragment. -/
def parse_fragment (path : Bytes) : Bytes × Option Bytes :=
  match split_first 35 path with
  | some pf => (pf.1, some pf.2)
  | none => (path, none)

/-! ## Query parameters

`Parameters` is rustful's map from keys to values; inserting an existing key
replaces the value (last write wins, spec §3). -/

abbrev Parameters := List (Bytes × Bytes)

def Parameters.nil : Parameters := []

def Parameters.insert : Parameters → Bytes → Bytes → Parameters
  | [], k, v => [(k, v)]
  | (k1, v1) :: rest, k, v =>
    if k1 = k then (k1, v) :: rest else (k1, v1) :: Parameters.insert rest k v

def collect_pairs (l : List (Bytes × Bytes)) : Parameters :=
  l.foldl (fun ps kv => Parameters.insert ps kv.1 kv.2) Parameters.nil

/-- Modelled from the spec: `utils::parse_parameters` lives in `src/utils.rs`,
which is not among the provided sources.  Spec §4.1: query strings are
decomposed into `key=value` pairs on `&` (byte 38); splitting on `&`. -/
def split_amp : Bytes → List Bytes
  | [] => [[]]
  | c :: rest =>
    if c = 38 then [] :: split_amp rest
    else
      match split_amp rest with
      | p :: ps => (c :: p) :: ps
      | [] => [[c]]

/-- Modelled from the spec: one `key=value` piece; both sides are
percent-decoded and an absent `=` (byte 61) yields an empty value. -/
def pair_of (piece : Bytes) : Bytes × Bytes :=
  match split_first 61 piece with
  | some kv => (percent_decode kv.1, percent_decode kv.2)
  | none => (percent_decode piece, [])

/-- Modelled from the spec: `utils::parse_parameters` (not under the provided
sources) decomposes a raw query string into pairs and collects them into a
`Parameters` map. -/
def parse_parameters (q : Bytes) : Parameters :=
  collect_pairs ((split_amp q).map pair_of)

/-! ## Parsed URIs -/

inductive Uri where
  | Path (p : Bytes)
  | Asterisk
deriving DecidableEq

def Uri.as_path : Uri → Option Bytes
  | .Path p => some p
  | .Asterisk => none

structure ParsedUri where
  host : Option (Bytes × Option Nat)
  uri : Uri
  query : Parameters
  fragment : Option Bytes
deriving DecidableEq

/-- `parse_path` from `instance.rs`: split at the first `?` (byte 63); the
query/fragment are parsed from the part after it, the part before it is the
percent-decoded path, normalized to `/` (byte 47) when empty.  Without a `?`,
the fragment is split off the whole string and the query is empty. -/
def parse_path (path : Bytes) : ParsedUri :=
  match split_first 63 path with
  | some ba =>
    let qf := parse_fragment ba.2
    let p := percent_decode ba.1
    let p := if p = [] then [47] else p
    { host := none, uri := .Path p, query := parse_parameters qf.1,
      fragment := (qf.2).map percent_decode }
  | none =>
    let pf := parse_fragment path
    let p := percent_decode pf.1
    let p := if p = [] then [47] else p
    { host := none, uri := .Path p, query := Parameters.nil,
      fragment := (pf.2).map percent_decode }

/-! ## Absolute-form URLs

The `url` crate's `Url` value, as consumed by `parse_url`: a relative-scheme
URL carries a host, an optional port, percent-encoded path components and an
optional raw query string; the fragment is stored raw. -/

inductive SchemeData where
  | Relative (host : Bytes) (port : Option Nat) (path : List Bytes) (query : Option Bytes)
  | NonRelative (data : Bytes)
deriving DecidableEq

structure Url where
  scheme_data : SchemeData
  fragment : Option Bytes
deriving DecidableEq

def Url.path : Url → Option (List Bytes)
  | ⟨.Relative _ _ p _, _⟩ => some p
  | _ => none

def Url.query : Url → Option Bytes
  | ⟨.Relative _ _ _ q, _⟩ => q
  | _ => none

/-- Modelled from the spec: the `url` crate's `query_pairs()` (an external
collaborator) decomposes the raw query string into decoded `key=value`
pairs, per the query semantics of spec §4.1. -/
def Url.query_pairs (u : Url) : Option (List (Bytes × Bytes)) :=
  (Url.query u).map (fun q => (split_amp q).map pair_of)

def Url.host_port : Url → Option (Bytes × Option Nat)
  | ⟨.Relative h p _ _, _⟩ => some (h, p)
  | _ => none

/-- `parse_url` from `instance.rs`: for every path component push `/` and
percent-decode the component into the path buffer; an empty path is
normalized to `/`; query pairs are collected into a `Parameters` map; the
fragment is percent-decoded; host and port are kept for information. -/
def parse_url (url : Url) : ParsedUri :=
  let path := ((Url.path url).getD []).foldl (fun acc c => acc ++ 47 :: percent_decode c) []
  let path := if path = [] then [47] else path
  { host := Url.host_port url,
    uri := .Path path,
    query := collect_pairs ((Url.query_pairs url).getD []),
    fragment := (url.fragment).map percent_decode }

/-- The origin-form serialization of path/query/fragment components: the
path string a client would send in place of an absolute URL with those
components (path components joined by `/`, then `?query`, then
`#fragment`). -/
def origin_form (comps : List Bytes) (query : Option Bytes) (fragment : Option Bytes) : Bytes :=
  (comps.foldl (fun acc c => acc ++ 47 :: c) [])
    ++ (match query with | some q => 63 :: q | none => [])
    ++ (match fragment with | some f => 35 :: f | none => [])

/-! ## Status codes, headers, response heads -/

inductive StatusCode where
  | Ok
  | BadRequest
  | NotFound
  | Code (n : Nat)
deriving DecidableEq

abbrev Headers := List (String × String)

/-- `Headers::set` of the `hyper` crate: setting a header replaces any
existing header of the same name. -/
def Headers.set (hs : Headers) (k v : String) : Headers :=
  hs.filter (fun p => p.1 ≠ k) ++ [(k, v)]

structure ResponseHead where
  status : StatusCode
  headers : Headers
deriving DecidableEq

/-- The type-keyed per-request scoped storage (`anymap::Map`), abstracted to
a list of key/value tokens; filters transform it as an opaque value. -/
abbrev FilterStorage := List (Nat × Nat)

def FilterStorage.empty : FilterStorage := []

structure ResponseFilters where
  storage : FilterStorage
deriving DecidableEq

/-- Modelled from the spec: `interface::response::make_response_filters` is
not among the provided sources; spec §4.5 says the response-filter pipeline
starts with a fresh (empty) per-request scoped-storage map. -/
def make_response_filters : ResponseFilters :=
  { storage := FilterStorage.empty }

/-- `RawResponse` from `response.rs` (only the fields `instance.rs` uses). -/
structure RawResponse where
  status : StatusCode
  headers : Headers
  filters : ResponseFilters
deriving DecidableEq

/-! ## Requests and contexts -/

/-- The process-wide shared state, opaque to the dispatcher. -/
abbrev Global := Nat

/-- The one-shot continuation handle (`hyper::Control`), opaque. -/
structure Control where
  token : Nat
deriving DecidableEq

/-- `hyper::uri::RequestUri`: the four target-URI forms of a request line. -/
inductive RequestUri where
  | AbsoluteUri (url : Url)
  | AbsolutePath (path : Bytes)
  | Star
  | Authority (auth : Bytes)
deriving DecidableEq

structure Request where
  method : String
  uri : RequestUri
  headers : List (String × String)
deriving DecidableEq

/-- `RawContext` from `context.rs` (the fields `instance.rs` constructs). -/
structure RawContext where
  request : Request
  uri : Uri
  hyperlinks : List Nat
  vars : Parameters
  query : Parameters
  fragment : Option Bytes
  global : Global
  control : Control
deriving DecidableEq

/-! ## Context filters -/

inductive ContextAction where
  | Next
  | Abort (status : StatusCode)
deriving DecidableEq

/-- A context filter's `modify` method: it receives the scoped storage, the
global state and the request context, may mutate storage and context, and
returns a `ContextAction`. -/
abbrev ContextFilter :=
  FilterStorage → Global → RawContext → FilterStorage × RawContext × ContextAction

/-- `modify_context` from `instance.rs`: run the filters in chain order,
starting from `Next`; as soon as a filter returns something other than
`Next`, stop and return that action (together with the storage and context
as mutated so far). -/
def modify_context (filters : List ContextFilter) (global : Global)
    (storage : FilterStorage) (context : RawContext) :
    FilterStorage × RawContext × ContextAction :=
  match filters with
  | [] => (storage, context, .Next)
  | f :: rest =>
    match f storage global context with
    | (s1, c1, .Next) => modify_context rest global s1 c1
    | r => r

/-! ## Routing and handlers -/

/-- A handler descriptor is used only through `Factory::create`, so it is
embedded as its `create` function. -/
abbrev HandlerDesc (HI : Type) := RawContext → RawResponse → HI

/-- `Endpoint` returned by `Router::find`. -/
structure Endpoint (HI : Type) where
  handler : Option (HandlerDesc HI)
  vars : Parameters
  hyperlinks : List Nat

/-- `hyper::Next`: the I/O directive returned to the transport. -/
inductive HNext where
  | read
  | write
  | end_
  | wait
deriving DecidableEq

/-- The methods of a running handler instance (`RawHandler`), as a record of
pure transition functions on the instance state `HI`. -/
structure HandlerOps (HI : Type) where
  on_request : HI → HI × HNext
  on_request_readable : HI → HI × HNext
  on_response : HI → HI × ResponseHead × HNext
  on_response_writable : HI → HI × HNext

/-- The server `Config` shared by all request handlers: the router (embedded
as its `find` function), the optional fallback handler, the server-identity
and content-type header values, and the context-filter chain. -/
structure Config (HI : Type) where
  find : String → Bytes → Endpoint HI
  fallback_handler : Option (HandlerDesc HI)
  server : String
  content_type : String
  context_filters : List ContextFilter

/-! ## The request/response state machine (`RequestHandler`) -/

inductive WriteMethod (HI : Type) where
  | Handler (h : HI)
  | Error (head : Option ResponseHead)

structure RequestHandler (HI : Type) where
  config : Config HI
  global : Global
  write_method : Option (WriteMethod HI)
  control : Option Control

/-- The response as seeded unconditionally at the start of `on_request`:
status `200 Ok`, and `Date`, `Content-Type` and `Server` headers
(`now` stands for the formatted `time::now_utc()` value). -/
def seeded_response (HI : Type) (cfg : Config HI) (now : String) : RawResponse :=
  { status := .Ok,
    headers :=
      Headers.set (Headers.set (Headers.set [] "Date" now)
        "Content-Type" cfg.content_type) "Server" cfg.server,
    filters := make_response_filters }

/-- The `match *request.uri()` classification in `on_request`: origin-form
paths and absolute URLs are parsed, `*` yields the `Asterisk` URI with empty
query and no fragment, and any other form yields `none`. -/
def parse_target : RequestUri → Option ParsedUri
  | .AbsoluteUri url => some (parse_url url)
  | .AbsolutePath path => some (parse_path path)
  | .Star => some { host := none, uri := .Asterisk, query := Parameters.nil, fragment := none }
  | .Authority _ => none

/-- The `RawContext` built in `on_request` from the parsed URI: no
hyperlinks or variables yet, and the continuation handle threaded in. -/
def initial_context (global : Global) (control : Control) (request : Request)
    (p : ParsedUri) : RawContext :=
  { request := request, uri := p.uri, hyperlinks := [], vars := Parameters.nil,
    query := p.query, fragment := p.fragment, global := global, control := control }

/-- The routing phase of `on_request`, reached only when the filter chain
returned `Next` (with `response` already carrying the transferred filter
storage): an `Asterisk` or otherwise path-less URI bypasses the router and
yields an empty endpoint; otherwise the router is consulted; the endpoint's
handler, or else the fallback handler, is created and invoked; with neither,
a `404 Not Found` error head is synthesized. -/
def route_phase {HI : Type} (ops : HandlerOps HI) (cfg : Config HI)
    (response : RawResponse) (context : RawContext) : WriteMethod HI × HNext :=
  let endpoint : Endpoint HI :=
    match Uri.as_path context.uri with
    | none => { handler := none, vars := Parameters.nil, hyperlinks := [] }
    | some path => cfg.find context.request.method path
  match endpoint.handler.or cfg.fallback_handler with
  | some handler =>
    let context := { context with hyperlinks := endpoint.hyperlinks,
                                  vars := endpoint.vars }
    let r := ops.on_request (handler context response)
    (.Handler r.1, r.2)
  | none =>
    (.Error (some { status := .NotFound,
                    headers := { response with status := .NotFound }.headers }),
     .write)

/-- The body of `on_request` once the continuation handle has been taken:
seed the response, classify the target, run the context-filter chain, and
either route (transferring the filter storage into the response) or
synthesize an error head (`Abort` status, or `400 Bad Request` for an
unclassifiable target). -/
def dispatch {HI : Type} (ops : HandlerOps HI) (cfg : Config HI) (global : Global)
    (control : Control) (request : Request) (now : String) : WriteMethod HI × HNext :=
  let response := seeded_response HI cfg now
  match parse_target request.uri with
  | some p =>
    let context := initial_context global control request p
    match modify_context cfg.context_filters global FilterStorage.empty context with
    | (storage, context, .Next) =>
      route_phase ops cfg { response with filters := { storage := storage } } context
    | (_, _, .Abort status) =>
      (.Error (some { status := status, headers := { response with status := status }.headers }),
       .write)
  | none =>
    (.Error (some { status := .BadRequest,
                    headers := { response with status := .BadRequest }.headers }),
     .write)

/-- `HyperHandler::on_request`: take the one-shot continuation handle (a
second call finds it gone and panics, modelled as `Except.error`), dispatch,
and store the resulting write method. -/
def RequestHandler.on_request {HI : Type} (ops : HandlerOps HI)
    (self : RequestHandler HI) (request : Request) (now : String) :
    Except String (RequestHandler HI × HNext) :=
  match self.control with
  | some control =>
    let r := dispatch ops self.config self.global control request now
    .ok ({ self with write_method := some r.1, control := none }, r.2)
  | none => .error "RequestHandler reused"

/-- `HyperHandler::on_request_readable`: forward readiness to the handler if
present; with an `Error` write method (or none), body bytes are ignored and
the machine stays ready to write. -/
def RequestHandler.on_request_readable {HI : Type} (ops : HandlerOps HI)
    (self : RequestHandler HI) : RequestHandler HI × HNext :=
  match self.write_method with
  | some (.Handler h) =>
    let r := ops.on_request_readable h
    ({ self with write_method := some (.Handler r.1) }, r.2)
  | _ => (self, .write)

/-- `HyperHandler::on_response`: a `Handler` write method delegates to the
handler; an `Error` write method takes the synthesized head out of its
one-shot slot (a second call finds it empty and panics, modelled as
`Except.error`) and signals end-of-response; a missing write method
panics. The returned head is what is written to the transport response. -/
def RequestHandler.on_response {HI : Type} (ops : HandlerOps HI)
    (self : RequestHandler HI) :
    Except String (RequestHandler HI × ResponseHead × HNext) :=
  match self.write_method with
  | some (.Handler h) =>
    let r := ops.on_response h
    .ok ({ self with write_method := some (.Handler r.1) }, r.2.1, r.2.2)
  | some (.Error (some head)) =>
    .ok ({ self with write_method := some (.Error none) }, head, .end_)
  | some (.Error none) => .error "missing response head"
  | none => .error "missing write method"

/-- `HyperHandler::on_response_writable`: delegate to the handler for body
bytes if present; otherwise signal completion immediately. -/
def RequestHandler.on_response_writable {HI : Type} (ops : HandlerOps HI)
    (self : RequestHandler HI) : RequestHandler HI × HNext :=
  match self.write_method with
  | some (.Handler h) =>
    let r := ops.on_response_writable h
    ({ self with write_method := some (.Handler r.1) }, r.2)
  | _ => (self, .end_)

/-! ## Server instance construction (`ServerInstance::new`) -/

structure ServerSettings where
  threads : Option Nat
  keep_alive : Bool
  timeout : Nat
  max_sockets : Nat

structure ServerInstance where
  threads : Nat
  keep_alive : Bool
  timeout : Nat
  max_sockets : Nat

/-- `ServerInstance::new`: the worker thread count defaults to
`num_cpus * 5 / 4` when not configured (`num_cpus` stands for
`num_cpus::get()`). -/
def ServerInstance.new (config : ServerSettings) (num_cpus : Nat) : ServerInstance :=
  { threads := config.threads.getD (num_cpus * 5 / 4),
    keep_alive := config.keep_alive,
    timeout := config.timeout,
    max_sockets := config.max_sockets }

/-! ## Concrete fixtures used by the witness theorems -/

def unitOps : HandlerOps Unit :=
  { on_request := fun h => (h, .read),
    on_request_readable := fun h => (h, .read),
    on_response := fun h => (h, { status := .Ok, headers := [] }, .write),
    on_response_writable := fun h => (h, .end_) }

def emptyEndpoint : Endpoint Unit :=
  { handler := none, vars := Parameters.nil, hyperlinks := [] }

def unitConfig : Config Unit :=
  { find := fun _ _ => emptyEndpoint,
    fallback_handler := none,
    server := "rustful",
    content_type := "text/plain",
    context_filters := [] }

def fallbackConfig : Config Unit :=
  { unitConfig with fallback_handler := some (fun _ _ => ()) }

def getRequest : Request :=
  { method := "GET", uri := .AbsolutePath [47, 97], headers := [] }

def starRequest : Request :=
  { method := "OPTIONS", uri := .Star, headers := [] }

def authorityRequest : Request :=
  { method := "CONNECT", uri := .Authority [97], headers := [] }

def freshState (cfg : Config Unit) : RequestHandler Unit :=
  { config := cfg, global := 0, write_method := none, control := some { token := 0 } }

def nextFilter : ContextFilter := fun s _ c => (s, c, .Next)

def abortFilter : ContextFilter := fun s _ c => (s, c, .Abort (.Code 418))

def reusedState : RequestHandler Unit :=
  { config := unitConfig, global := 0, write_method := none, control := none }

def errorHeadState : RequestHandler Unit :=
  { config := unitConfig, global := 0,
    write_method := some (.Error (some { status := .NotFound, headers := [] })),
    control := none }

def consumedState : RequestHandler Unit :=
  { config := unitConfig, global := 0, write_method := some (.Error none), control := none }

def handlerConfig : Config Unit :=
  { unitConfig with
      find := fun _ _ => { handler := some (fun _ _ => ()),
                           vars := Parameters.nil, hyperlinks := [] } }

def abortConfig : Config Unit :=
  { unitConfig with context_filters := [abortFilter] }

/-! ## Unfolding lemmas for `percent_decode` -/

theorem percent_decode_nil : percent_decode [] = [] := rfl

theorem percent_decode_cons (c : Nat) (hc : ¬ c = 37) (rest : Bytes) :
    percent_decode (c :: rest) = c :: percent_decode rest := by
  cases rest with
  | nil => simp [percent_decode]
  | cons h t =>
    cases t with
    | nil => simp [percent_decode, hc]
    | cons l r =>
      conv_lhs => rw [percent_decode.eq_def]
      simp [hc]

theorem percent_decode_hex (h l : Nat) (hv lv : Nat) (rest : Bytes)
    (hh : from_hex h = some hv) (hl : from_hex l = some lv) :
    percent_decode (37 :: h :: l :: rest) = (16 * hv + lv) :: percent_decode rest := by
  conv_lhs => rw [percent_decode.eq_def]
  simp [hh, hl]

theorem percent_decode_fail (h l : Nat) (rest : Bytes)
    (hfail : from_hex h = none ∨ from_hex l = none) :
    percent_decode (37 :: h :: l :: rest) = 37 :: percent_decode (h :: l :: rest) := by
  conv_lhs => rw [percent_decode.eq_def]
  rcases hfail with hf | hf
  · simp [hf]
  · cases hfh : from_hex h <;> simp [hfh, hf]

theorem percent_decode_one (c : Nat) : percent_decode [c] = [c] := by
  by_cases hc : c = 37
  · subst hc; simp [percent_decode]
  · exact percent_decode_cons c hc []

theorem percent_decode_37_two (d : Nat) : percent_decode [37, d] = [37, d] := by
  simp [percent_decode]

theorem percent_decode_append_aux (b : Nat) (hb : from_hex b = none) (hb37 : ¬ b = 37) :
    ∀ (n : Nat) (xs ys : Bytes), xs.length ≤ n →
      percent_decode (xs ++ b :: ys) = percent_decode xs ++ b :: percent_decode ys := by
  intro n
  induction n with
  | zero =>
    intro xs ys hlen
    have hx : xs = [] := List.eq_nil_of_length_eq_zero (Nat.le_zero.mp hlen)
    subst hx
    simpa using percent_decode_cons b hb37 ys
  | succ n ih =>
    intro xs ys hlen
    match xs with
    | [] => simpa using percent_decode_cons b hb37 ys
    | c :: rest =>
      by_cases hc : c = 37
      · subst hc
        match rest with
        | [] =>
          cases ys with
          | nil => simp [percent_decode_37_two, percent_decode_one, percent_decode_nil]
          | cons y ys1 =>
            rw [show ([37] ++ b :: y :: ys1) = 37 :: b :: y :: ys1 from rfl,
                percent_decode_fail b y ys1 (Or.inl hb),
                percent_decode_cons b hb37, percent_decode_one]
            rfl
        | [h] =>
          have hrec := ih [h] ys (by simpa using Nat.le_of_succ_le_succ hlen)
          rw [show ([37, h] ++ b :: ys) = 37 :: h :: b :: ys from rfl,
              percent_decode_fail h b ys (Or.inr hb), percent_decode_37_two]
          rw [show (h :: b :: ys) = [h] ++ b :: ys from rfl, hrec, percent_decode_one]
          rfl
        | h :: l :: rest2 =>
          have hlen2 : rest2.length ≤ n := by
            simp at hlen; omega
          have hlen3 : (h :: l :: rest2).length ≤ n := by
            simp at hlen ⊢; omega
          cases hfh : from_hex h with
          | some hv =>
            cases hfl : from_hex l with
            | some lv =>
              rw [show ((37 :: h :: l :: rest2) ++ b :: ys) = 37 :: h :: l :: (rest2 ++ b :: ys) from rfl,
                  percent_decode_hex h l hv lv _ hfh hfl,
                  percent_decode_hex h l hv lv rest2 hfh hfl,
                  ih rest2 ys hlen2]
              rfl
            | none =>
              rw [show ((37 :: h :: l :: rest2) ++ b :: ys) = 37 :: h :: l :: (rest2 ++ b :: ys) from rfl,
                  percent_decode_fail h l _ (Or.inr hfl),
                  percent_decode_fail h l rest2 (Or.inr hfl),
                  show (h :: l :: (rest2 ++ b :: ys)) = (h :: l :: rest2) ++ b :: ys from rfl,
                  ih (h :: l :: rest2) ys hlen3]
              rfl
          | none =>
            rw [show ((37 :: h :: l :: rest2) ++ b :: ys) = 37 :: h :: l :: (rest2 ++ b :: ys) from rfl,
                percent_decode_fail h l _ (Or.inl hfh),
                percent_decode_fail h l rest2 (Or.inl hfh),
                show (h :: l :: (rest2 ++ b :: ys)) = (h :: l :: rest2) ++ b :: ys from rfl,
                ih (h :: l :: rest2) ys hlen3]
            rfl
      · have hrec := ih rest ys (by simpa using Nat.le_of_succ_le_succ hlen)
        rw [List.cons_append, percent_decode_cons c hc, percent_decode_cons c hc, hrec]
        rfl

/-- Percent decoding distributes over concatenation at any separator byte
that is neither `%` nor a hex digit (such as `/`). -/
theorem percent_decode_append (b : Nat) (hb : from_hex b = none) (hb37 : ¬ b = 37)
    (xs ys : Bytes) :
    percent_decode (xs ++ b :: ys) = percent_decode xs ++ b :: percent_decode ys :=
  percent_decode_append_aux b hb hb37 xs.length xs ys (Nat.le_refl _)

/-! ## Lemmas about `split_first` and joined paths -/

theorem split_first_of_not_mem {c : Nat} {xs : Bytes} (h : c ∉ xs) :
    split_first c xs = none := by
  induction xs with
  | nil => rfl
  | cons b rest ih =>
    have hbc : ¬ b = c := fun e => h (e ▸ List.mem_cons_self b rest)
    have hr : c ∉ rest := fun hm => h (List.mem_cons_of_mem _ hm)
    simp [split_first, hbc, ih hr]

theorem split_first_append {c : Nat} {xs : Bytes} (h : c ∉ xs) (ys : Bytes) :
    split_first c (xs ++ c :: ys) = some (xs, ys) := by
  induction xs with
  | nil => simp [split_first]
  | cons b rest ih =>
    have hbc : ¬ b = c := fun e => h (e ▸ List.mem_cons_self b rest)
    have hr : c ∉ rest := fun hm => h (List.mem_cons_of_mem _ hm)
    simp [split_first, hbc, ih hr]

theorem not_mem_join {c : Nat} (hc : ¬ c = 47) :
    ∀ (comps : List Bytes) (acc : Bytes), c ∉ acc → (∀ p ∈ comps, c ∉ p) →
      c ∉ comps.foldl (fun a q => a ++ 47 :: q) acc := by
  intro comps
  induction comps with
  | nil => intro acc hacc _; simpa using hacc
  | cons p rest ih =>
    intro acc hacc hall
    simp only [List.foldl_cons]
    apply ih
    · intro hm
      rcases List.mem_append.mp hm with h1 | h2
      · exact hacc h1
      · rcases List.mem_cons.mp h2 with h3 | h4
        · exact hc h3
        · exact hall p (List.mem_cons_self p rest) h4
    · intro q hq
      exact hall q (List.mem_cons_of_mem _ hq)

/-- Decoding a `/`-joined path equals joining the decoded components: the
bridge between `parse_path` (decode the whole path) and `parse_url`
(decode component by component). -/
theorem percent_decode_join :
    ∀ (comps : List Bytes) (acc : Bytes),
      percent_decode (comps.foldl (fun a q => a ++ 47 :: q) acc)
        = comps.foldl (fun a q => a ++ 47 :: percent_decode q) (percent_decode acc) := by
  intro comps
  induction comps with
  | nil => intro acc; rfl
  | cons p rest ih =>
    intro acc
    simp only [List.foldl_cons]
    rw [ih, percent_decode_append 47 (by decide) (by decide)]

/-! ## Lemmas about the context-filter chain -/

theorem modify_context_next_append {pre : List ContextFilter} {g : Global}
    {s s1 : FilterStorage} {c c1 : RawContext}
    (h : modify_context pre g s c = (s1, c1, .Next)) (rest : List ContextFilter) :
    modify_context (pre ++ rest) g s c = modify_context rest g s1 c1 := by
  induction pre generalizing s c with
  | nil =>
    simp only [modify_context] at h
    obtain ⟨h1, h2, _⟩ := Prod.mk.injEq .. ▸ h
    simp_all [modify_context]
  | cons f fs ih =>
    simp only [List.cons_append, modify_context] at h ⊢
    rcases hf : f s g c with ⟨s2, c2, a⟩
    rw [hf] at h
    cases a with
    | Next => exact ih h
    | Abort st => simp at h

theorem modify_context_abort_append {pre : List ContextFilter} {g : Global}
    {s s1 : FilterStorage} {c c1 : RawContext} {st : StatusCode}
    (h : modify_context pre g s c = (s1, c1, .Abort st)) (rest : List ContextFilter) :
    modify_context (pre ++ rest) g s c = (s1, c1, .Abort st) := by
  induction pre generalizing s c with
  | nil => simp [modify_context] at h
  | cons f fs ih =>
    simp only [List.cons_append, modify_context] at h ⊢
    rcases hf : f s g c with ⟨s2, c2, a⟩
    rw [hf] at h
    cases a with
    | Next => exact ih h
    | Abort st2 => exact h

theorem modify_context_abort_cons {f : ContextFilter} {g : Global}
    {s s1 : FilterStorage} {c c1 : RawContext} {st : StatusCode}
    (hf : f s g c = (s1, c1, .Abort st)) (rest : List ContextFilter) :
    modify_context (f :: rest) g s c = (s1, c1, .Abort st) := by
  simp [modify_context, hf]

/-! ## Unfolding lemmas for `dispatch` and `route_phase` -/

theorem dispatch_of_unparseable {HI : Type} (ops : HandlerOps HI) (cfg : Config HI)
    (g : Global) (ctrl : Control) (request : Request) (now : String)
    (hp : parse_target request.uri = none) :
    dispatch ops cfg g ctrl request now =
      (.Error (some { status := .BadRequest, headers := (seeded_response HI cfg now).headers }),
       .write) := by
  simp [dispatch, hp]

theorem dispatch_of_abort {HI : Type} (ops : HandlerOps HI) (cfg : Config HI)
    (g : Global) (ctrl : Control) (request : Request) (now : String)
    (p : ParsedUri) (s2 : FilterStorage) (c2 : RawContext) (S : StatusCode)
    (hp : parse_target request.uri = some p)
    (hm : modify_context cfg.context_filters g FilterStorage.empty
            (initial_context g ctrl request p) = (s2, c2, .Abort S)) :
    dispatch ops cfg g ctrl request now =
      (.Error (some { status := S, headers := (seeded_response HI cfg now).headers }), .write) := by
  simp [dispatch, hp, hm]

theorem dispatch_of_next {HI : Type} (ops : HandlerOps HI) (cfg : Config HI)
    (g : Global) (ctrl : Control) (request : Request) (now : String)
    (p : ParsedUri) (s2 : FilterStorage) (c2 : RawContext)
    (hp : parse_target request.uri = some p)
    (hm : modify_context cfg.context_filters g FilterStorage.empty
            (initial_context g ctrl request p) = (s2, c2, .Next)) :
    dispatch ops cfg g ctrl request now =
      route_phase ops cfg
        { seeded_response HI cfg now with filters := { storage := s2 } } c2 := by
  simp [dispatch, hp, hm]

theorem route_phase_no_path_no_fallback {HI : Type} (ops : HandlerOps HI) (cfg : Config HI)
    (response : RawResponse) (context : RawContext)
    (h : Uri.as_path context.uri = none) (hfb : cfg.fallback_handler = none) :
    route_phase ops cfg response context =
      (.Error (some { status := .NotFound, headers := response.headers }), .write) := by
  simp [route_phase, h, hfb, Option.or]

theorem route_phase_no_path_fallback {HI : Type} (ops : HandlerOps HI) (cfg : Config HI)
    (response : RawResponse) (context : RawContext) (fb : HandlerDesc HI)
    (h : Uri.as_path context.uri = none) (hfb : cfg.fallback_handler = some fb) :
    route_phase ops cfg response context =
      (.Handler (ops.on_request
          (fb { context with hyperlinks := [], vars := Parameters.nil } response)).1,
       (ops.on_request
          (fb { context with hyperlinks := [], vars := Parameters.nil } response)).2) := by
  simp [route_phase, h, hfb, Option.or]

theorem route_phase_find_no_handler_no_fallback {HI : Type} (ops : HandlerOps HI)
    (cfg : Config HI) (response : RawResponse) (context : RawContext)
    (path : Bytes) (ep : Endpoint HI)
    (h : Uri.as_path context.uri = some path)
    (hfind : cfg.find context.request.method path = ep)
    (hep : ep.handler = none) (hfb : cfg.fallback_handler = none) :
    route_phase ops cfg response context =
      (.Error (some { status := .NotFound, headers := response.headers }), .write) := by
  simp [route_phase, h, hfind, hep, hfb, Option.or]

theorem route_phase_find_no_handler_fallback {HI : Type} (ops : HandlerOps HI)
    (cfg : Config HI) (response : RawResponse) (context : RawContext)
    (path : Bytes) (ep : Endpoint HI) (fb : HandlerDesc HI)
    (h : Uri.as_path context.uri = some path)
    (hfind : cfg.find context.request.method path = ep)
    (hep : ep.handler = none) (hfb : cfg.fallback_handler = some fb) :
    route_phase ops cfg response context =
      (.Handler (ops.on_request
          (fb { context with hyperlinks := ep.hyperlinks, vars := ep.vars } response)).1,
       (ops.on_request
          (fb { context with hyperlinks := ep.hyperlinks, vars := ep.vars } response)).2) := by
  simp [route_phase, h, hfind, hep, hfb, Option.or]

theorem route_phase_find_handler {HI : Type} (ops : HandlerOps HI)
    (cfg : Config HI) (response : RawResponse) (context : RawContext)
    (path : Bytes) (ep : Endpoint HI) (hd : HandlerDesc HI)
    (h : Uri.as_path context.uri = some path)
    (hfind : cfg.find context.request.method path = ep)
    (hep : ep.handler = some hd) :
    route_phase ops cfg response context =
      (.Handler (ops.on_request
          (hd { context with hyperlinks := ep.hyperlinks, vars := ep.vars } response)).1,
       (ops.on_request
          (hd { context with hyperlinks := ep.hyperlinks, vars := ep.vars } response)).2) := by
  simp [route_phase, h, hfind, hep, Option.or]

theorem on_request_of_control {HI : Type} (ops : HandlerOps HI) (self : RequestHandler HI)
    (ctrl : Control) (request : Request) (now : String)
    (hc : self.control = some ctrl) :
    RequestHandler.on_request ops self request now =
      .ok ({ self with
              write_method := some (dispatch ops self.config self.global ctrl request now).1,
              control := none },
           (dispatch ops self.config self.global ctrl request now).2) := by
  simp [RequestHandler.on_request, hc]

theorem split_first_eq_some {c : Nat} :
    ∀ {xs p s : Bytes}, split_first c xs = some (p, s) → xs = p ++ c :: s ∧ c ∉ p := by
  intro xs
  induction xs with
  | nil => intro p s h; simp [split_first] at h
  | cons b rest ih =>
    intro p s h
    simp only [split_first] at h
    by_cases hb : b = c
    · rw [if_pos hb] at h
      simp only [Option.some.injEq, Prod.mk.injEq] at h
      obtain ⟨hp, hs⟩ := h
      subst hb; subst hp; subst hs
      simp
    · rw [if_neg hb] at h
      cases hsp : split_first c rest with
      | none => rw [hsp] at h; simp at h
      | some pr =>
        rw [hsp] at h
        simp only [Option.map_some', Option.some.injEq, Prod.mk.injEq] at h
        obtain ⟨hp, hs⟩ := h
        obtain ⟨hrest, hnm⟩ := ih hsp
        subst hp; subst hs
        constructor
        · simp [hrest]
        · intro hm
          rcases List.mem_cons.mp hm with h1 | h2
          · exact hb h1.symm
          · exact hnm h2

theorem hash_last_split {t : Bytes} (h35 : 35 ∉ t) :
    ∀ {a b : Bytes}, split_first 63 (t ++ [35]) = some (a, b) →
      (parse_fragment b).2 = some [] := by
  induction t with
  | nil =>
    intro a b h
    have hx : split_first 63 ([] ++ [35]) = none := by decide
    rw [hx] at h
    simp at h
  | cons x t ih =>
    have hx35 : ¬ x = 35 := fun e => h35 (e ▸ List.mem_cons_self x t)
    have ht35 : 35 ∉ t := fun hm => h35 (List.mem_cons_of_mem _ hm)
    intro a b h
    simp only [List.cons_append, split_first] at h
    rw [List.append_eq] at h
    by_cases hx : x = 63
    · rw [if_pos hx] at h
      simp only [Option.some.injEq, Prod.mk.injEq] at h
      obtain ⟨_, hb⟩ := h
      subst hb
      simp [parse_fragment, split_first_append ht35]
    · rw [if_neg hx] at h
      cases hsp : split_first 63 (t ++ [35]) with
      | none => rw [hsp] at h; simp at h
      | some pr =>
        rw [hsp] at h
        simp only [Option.map_some', Option.some.injEq, Prod.mk.injEq] at h
        obtain ⟨_, hb⟩ := h
        subst hb
        exact ih ht35 hsp

/-! ## Claim theorems and witnesses -/

/-- C8: when no thread count is configured, `ServerInstance::new` defaults
the worker thread pool size to `(cores * 5) / 4` in integer arithmetic
(roughly 1.25 times the available CPU cores). -/
theorem default_thread_count (config : ServerSettings) (num_cpus : Nat)
    (h : config.threads = none) :
    (ServerInstance.new config num_cpus).threads = num_cpus * 5 / 4 := by
  simp [ServerInstance.new, h]

theorem default_thread_count_witness :
    (({ threads := none, keep_alive := true, timeout := 10, max_sockets := 4096 } :
        ServerSettings).threads = none) ∧
    (ServerInstance.new
        { threads := none, keep_alive := true, timeout := 10, max_sockets := 4096 } 8).threads
      = 10 := by
  refine ⟨rfl, ?_⟩
  have h := default_thread_count
    { threads := none, keep_alive := true, timeout := 10, max_sockets := 4096 } 8 rfl
  simpa using h

/-- C5: the continuation handle is consumed exactly once at the start of the
first dispatch; dispatching again on the same state machine is a fatal error
(`RequestHandler reused`), not a silent no-op; and once the synthesized
`WriteMethod.Error` head has been emitted by `on_response`, requesting a
head a second time is a fatal error (`missing response head`). -/
theorem one_shot_continuation {HI : Type} (ops : HandlerOps HI) :
    (∀ (self : RequestHandler HI) (request : Request) (now : String),
       self.control = none →
       RequestHandler.on_request ops self request now = .error "RequestHandler reused")
  ∧ (∀ (self next1 : RequestHandler HI) (request : Request) (now : String) (n : HNext),
       RequestHandler.on_request ops self request now = .ok (next1, n) →
       next1.control = none ∧
       ∀ (ops2 : HandlerOps HI) (request2 : Request) (now2 : String),
         RequestHandler.on_request ops2 next1 request2 now2 = .error "RequestHandler reused")
  ∧ (∀ (self : RequestHandler HI) (head : ResponseHead),
       self.write_method = some (.Error (some head)) →
       RequestHandler.on_response ops self =
         .ok ({ self with write_method := some (.Error none) }, head, .end_))
  ∧ (∀ (self : RequestHandler HI),
       self.write_method = some (.Error none) →
       RequestHandler.on_response ops self = .error "missing response head") := by
  refine ⟨?_, ?_, ?_, ?_⟩
  · intro self request now hc
    simp [RequestHandler.on_request, hc]
  · intro self next1 request now n h
    cases hc : self.control with
    | none =>
      rw [RequestHandler.on_request, hc] at h
      simp at h
    | some ctrl =>
      rw [on_request_of_control ops self ctrl request now hc] at h
      simp only [Except.ok.injEq, Prod.mk.injEq] at h
      obtain ⟨h1, _⟩ := h
      have hctrl : next1.control = none := by rw [← h1]
      exact ⟨hctrl, fun ops2 request2 now2 => by
        simp [RequestHandler.on_request, hctrl]⟩
  · intro self head hw
    simp [RequestHandler.on_response, hw]
  · intro self hw
    simp [RequestHandler.on_response, hw]

theorem one_shot_continuation_witness :
    reusedState.control = none ∧
    RequestHandler.on_request unitOps reusedState getRequest "now" =
      .error "RequestHandler reused" ∧
    errorHeadState.write_method =
      some (.Error (some { status := .NotFound, headers := [] })) ∧
    RequestHandler.on_response unitOps errorHeadState =
      .ok ({ errorHeadState with write_method := some (.Error none) },
           { status := .NotFound, headers := [] }, .end_) ∧
    consumedState.write_method = some (.Error none) ∧
    RequestHandler.on_response unitOps consumedState = .error "missing response head" :=
  ⟨rfl,
   (one_shot_continuation unitOps).1 reusedState getRequest "now" rfl,
   rfl,
   (one_shot_continuation unitOps).2.2.1 errorHeadState _ rfl,
   rfl,
   (one_shot_continuation unitOps).2.2.2 consumedState rfl⟩

/-- C7: for a parsed target string, an absent `#` marker yields fragment
`none`, while a trailing `#` (the fragment marker with empty content) yields
`some []`; these are distinct observable states. -/
theorem fragment_none_vs_empty :
    (∀ s : Bytes, 35 ∉ s → (parse_path s).fragment = none)
  ∧ (∀ t : Bytes, 35 ∉ t → (parse_path (t ++ [35])).fragment = some [])
  ∧ some ([] : Bytes) ≠ (none : Option Bytes) := by
  refine ⟨?_, ?_, by simp⟩
  · intro s hs
    cases hsp : split_first 63 s with
    | none =>
      have h2 : split_first 35 s = none := split_first_of_not_mem hs
      simp [parse_path, hsp, parse_fragment, h2]
    | some ab =>
      obtain ⟨hseq, _⟩ := split_first_eq_some hsp
      have h35b : 35 ∉ ab.2 := by
        intro hm
        exact hs (hseq ▸ (by simp [hm]))
      have h2 : split_first 35 ab.2 = none := split_first_of_not_mem h35b
      simp [parse_path, hsp, parse_fragment, h2]
  · intro t ht
    cases hsp : split_first 63 (t ++ [35]) with
    | none =>
      simp [parse_path, hsp, parse_fragment, split_first_append ht, percent_decode_nil]
    | some ab =>
      have hfr := hash_last_split ht (a := ab.1) (b := ab.2) (by rw [hsp])
      simp [parse_path, hsp, hfr, percent_decode_nil]

theorem fragment_none_vs_empty_witness :
    (35 ∉ ([47, 97] : Bytes)) ∧
    (parse_path ([47, 97] : Bytes)).fragment = none ∧
    (parse_path (([47, 97] : Bytes) ++ [35])).fragment = some [] :=
  ⟨by decide, fragment_none_vs_empty.1 [47, 97] (by decide),
   fragment_none_vs_empty.2.1 [47, 97] (by decide)⟩

theorem seeded_headers_congr {HI HJ : Type} {cfg1 : Config HI} {cfg2 : Config HJ}
    (hs : cfg1.server = cfg2.server) (hct : cfg1.content_type = cfg2.content_type)
    (now : String) :
    (seeded_response HI cfg1 now).headers = (seeded_response HJ cfg2 now).headers := by
  simp [seeded_response, hs, hct]

/-- C4: a request whose target is neither an origin-form path, an absolute
URL nor the wildcard (hyper's authority form) yields status 400 Bad Request
with a synthesized error head carrying the seeded headers, and goes straight
to the write phase, for every method and header list; moreover the outcome
is identical under any configuration and handler type agreeing on the seeded
header values, so no context filter, router, fallback or handler affects
it. -/
theorem bad_request_on_unparseable {HI : Type} (ops : HandlerOps HI)
    (self : RequestHandler HI) (ctrl : Control) (auth : Bytes)
    (method : String) (reqHeaders : List (String × String)) (now : String)
    (hc : self.control = some ctrl) :
    (RequestHandler.on_request ops self
        { method := method, uri := .Authority auth, headers := reqHeaders } now =
      .ok ({ self with
              write_method := some (.Error (some
                ⟨.BadRequest, (seeded_response HI self.config now).headers⟩)),
              control := none },
           .write))
  ∧ ∀ (HJ : Type) (ops2 : HandlerOps HJ) (self2 : RequestHandler HJ) (ctrl2 : Control),
      self2.control = some ctrl2 →
      self2.config.server = self.config.server →
      self2.config.content_type = self.config.content_type →
      RequestHandler.on_request ops2 self2
          { method := method, uri := .Authority auth, headers := reqHeaders } now =
        .ok ({ self2 with
                write_method := some (.Error (some
                  ⟨.BadRequest, (seeded_response HI self.config now).headers⟩)),
                control := none },
             .write) := by
  constructor
  · rw [on_request_of_control ops self ctrl _ now hc,
        dispatch_of_unparseable ops self.config self.global ctrl
          { method := method, uri := .Authority auth, headers := reqHeaders } now rfl]
  · intro HJ ops2 self2 ctrl2 hc2 hs hct
    rw [on_request_of_control ops2 self2 ctrl2 _ now hc2,
        dispatch_of_unparseable ops2 self2.config self2.global ctrl2
          { method := method, uri := .Authority auth, headers := reqHeaders } now rfl,
        seeded_headers_congr hs hct now]

theorem bad_request_on_unparseable_witness :
    (freshState unitConfig).control = some { token := 0 } ∧
    RequestHandler.on_request unitOps (freshState unitConfig)
        { method := "CONNECT", uri := .Authority [97], headers := [] } "now" =
      .ok ({ freshState unitConfig with
              write_method := some (.Error (some
                ⟨.BadRequest, (seeded_response Unit unitConfig "now").headers⟩)),
              control := none },
           .write) :=
  ⟨rfl,
   (bad_request_on_unparseable unitOps (freshState unitConfig) { token := 0 } [97]
      "CONNECT" [] "now" rfl).1⟩

/-- C6: the response is seeded, before any filter or handler runs, with a
Date header, a Content-Type default and a Server identity header, and
status 200 Ok; and every synthesized error head (400, 404, filter abort)
carries exactly the seeded headers. -/
theorem seeded_response_headers {HI : Type} (cfg : Config HI) (now : String) :
    (seeded_response HI cfg now).status = .Ok
  ∧ ("Date", now) ∈ (seeded_response HI cfg now).headers
  ∧ ("Content-Type", cfg.content_type) ∈ (seeded_response HI cfg now).headers
  ∧ ("Server", cfg.server) ∈ (seeded_response HI cfg now).headers
  ∧ ∀ (ops : HandlerOps HI) (g : Global) (ctrl : Control) (request : Request)
      (head : ResponseHead),
      (dispatch ops cfg g ctrl request now).1 = .Error (some head) →
      head.headers = (seeded_response HI cfg now).headers := by
  refine ⟨rfl, ?_, ?_, ?_, ?_⟩
  · simp [seeded_response, Headers.set]
  · simp [seeded_response, Headers.set]
  · simp [seeded_response, Headers.set]
  · intro ops g ctrl request head hwm
    cases hp : parse_target request.uri with
    | none =>
      rw [dispatch_of_unparseable ops cfg g ctrl request now hp] at hwm
      simp only [WriteMethod.Error.injEq, Option.some.injEq] at hwm
      rw [← hwm]
    | some p =>
      rcases hm : modify_context cfg.context_filters g FilterStorage.empty
          (initial_context g ctrl request p) with ⟨s2, c2, a⟩
      cases a with
      | Abort S =>
        rw [dispatch_of_abort ops cfg g ctrl request now p s2 c2 S hp hm] at hwm
        simp only [WriteMethod.Error.injEq, Option.some.injEq] at hwm
        rw [← hwm]
      | Next =>
        rw [dispatch_of_next ops cfg g ctrl request now p s2 c2 hp hm] at hwm
        cases hap : Uri.as_path c2.uri with
        | none =>
          cases hfb : cfg.fallback_handler with
          | none =>
            rw [route_phase_no_path_no_fallback ops cfg _ c2 hap hfb] at hwm
            simp only [WriteMethod.Error.injEq, Option.some.injEq] at hwm
            rw [← hwm]
          | some fb =>
            rw [route_phase_no_path_fallback ops cfg _ c2 fb hap hfb] at hwm
            simp at hwm
        | some path =>
          cases hh : (cfg.find c2.request.method path).handler with
          | some hd =>
            rw [route_phase_find_handler ops cfg _ c2 path _ hd hap rfl hh] at hwm
            simp at hwm
          | none =>
            cases hfb : cfg.fallback_handler with
            | none =>
              rw [route_phase_find_no_handler_no_fallback ops cfg _ c2 path _ hap rfl hh hfb] at hwm
              simp only [WriteMethod.Error.injEq, Option.some.injEq] at hwm
              rw [← hwm]
            | some fb =>
              rw [route_phase_find_no_handler_fallback ops cfg _ c2 path _ fb hap rfl hh hfb] at hwm
              simp at hwm

theorem seeded_response_headers_witness :
    ((dispatch unitOps unitConfig 0 { token := 0 } authorityRequest "now").1 =
      .Error (some { status := .BadRequest,
                     headers := (seeded_response Unit unitConfig "now").headers })) ∧
    ("Date", "now") ∈ (seeded_response Unit unitConfig "now").headers ∧
    ResponseHead.headers
        { status := .BadRequest, headers := (seeded_response Unit unitConfig "now").headers }
      = (seeded_response Unit unitConfig "now").headers :=
  ⟨rfl,
   (seeded_response_headers unitConfig "now").2.1,
   (seeded_response_headers unitConfig "now").2.2.2.2 unitOps 0 { token := 0 }
     authorityRequest _ rfl⟩

theorem on_request_literal {HI : Type} (ops : HandlerOps HI) (cfg : Config HI)
    (g : Global) (ctrl : Control) (request : Request) (now : String) :
    RequestHandler.on_request ops
        { config := cfg, global := g, write_method := none, control := some ctrl }
        request now =
      .ok ({ config := cfg, global := g,
             write_method := some (dispatch ops cfg g ctrl request now).1,
             control := none },
           (dispatch ops cfg g ctrl request now).2) := rfl

/-- C1: if the filter at position k of the chain returns Abort(S) (reached
after the first k filters all returned Next), the chain halts — the overall
outcome is the same whatever filters sit after position k — the response
status becomes S, a synthesized error head (with the seeded headers) is
stored as `WriteMethod.Error`, and dispatch proceeds straight to the write
phase; if the whole chain returns Next, routing proceeds. -/
theorem filter_abort_halts_chain {HI : Type} (ops : HandlerOps HI) (cfg : Config HI)
    (g : Global) (ctrl : Control) (request : Request) (now : String) (p : ParsedUri)
    (hp : parse_target request.uri = some p) :
    (∀ (pre post : List ContextFilter) (f : ContextFilter)
       (s1 s2 : FilterStorage) (c1 c2 : RawContext) (S : StatusCode),
       modify_context pre g FilterStorage.empty (initial_context g ctrl request p)
         = (s1, c1, .Next) →
       f s1 g c1 = (s2, c2, .Abort S) →
       RequestHandler.on_request ops
           { config := { cfg with context_filters := pre ++ f :: post }, global := g,
             write_method := none, control := some ctrl } request now =
         .ok ({ config := { cfg with context_filters := pre ++ f :: post }, global := g,
                write_method := some (.Error (some
                  ⟨S, (seeded_response HI cfg now).headers⟩)),
                control := none },
              .write))
  ∧ (∀ (s2 : FilterStorage) (c2 : RawContext),
       modify_context cfg.context_filters g FilterStorage.empty
           (initial_context g ctrl request p) = (s2, c2, .Next) →
       RequestHandler.on_request ops
           { config := cfg, global := g, write_method := none, control := some ctrl }
           request now =
         .ok ({ config := cfg, global := g,
                write_method := some ((route_phase ops cfg
                  { seeded_response HI cfg now with filters := { storage := s2 } } c2).1),
                control := none },
              (route_phase ops cfg
                { seeded_response HI cfg now with filters := { storage := s2 } } c2).2)) := by
  constructor
  · intro pre post f s1 s2 c1 c2 S hpre hf
    have hchain : modify_context (pre ++ f :: post) g FilterStorage.empty
        (initial_context g ctrl request p) = (s2, c2, .Abort S) := by
      rw [modify_context_next_append hpre (f :: post), modify_context_abort_cons hf post]
    rw [on_request_literal ops _ g ctrl request now,
        dispatch_of_abort ops { cfg with context_filters := pre ++ f :: post }
          g ctrl request now p s2 c2 S hp hchain]
    rfl
  · intro s2 c2 hm
    rw [on_request_literal ops cfg g ctrl request now,
        dispatch_of_next ops cfg g ctrl request now p s2 c2 hp hm]

/-- C3: when routing yields an endpoint with no handler: if no fallback
handler is configured, dispatch sets 404 Not Found with a synthesized error
head and no body (the head is emitted together with end-of-response); if a
fallback is configured it is substituted — created with the endpoint data
and invoked. -/
theorem not_found_or_fallback {HI : Type} (ops : HandlerOps HI) (cfg : Config HI)
    (g : Global) (ctrl : Control) (request : Request) (now : String) (p : ParsedUri)
    (s2 : FilterStorage) (c2 : RawContext) (path : Bytes)
    (hp : parse_target request.uri = some p)
    (hm : modify_context cfg.context_filters g FilterStorage.empty
            (initial_context g ctrl request p) = (s2, c2, .Next))
    (hpath : Uri.as_path c2.uri = some path)
    (hh : (cfg.find c2.request.method path).handler = none) :
    (cfg.fallback_handler = none →
      RequestHandler.on_request ops
          { config := cfg, global := g, write_method := none, control := some ctrl }
          request now =
        .ok ({ config := cfg, global := g,
               write_method := some (.Error (some
                 ⟨.NotFound, (seeded_response HI cfg now).headers⟩)),
               control := none },
             .write)
      ∧ RequestHandler.on_response ops
          { config := cfg, global := g,
            write_method := some (.Error (some
              ⟨.NotFound, (seeded_response HI cfg now).headers⟩)),
            control := none } =
          .ok ({ config := cfg, global := g, write_method := some (.Error none),
                 control := none },
               ⟨.NotFound, (seeded_response HI cfg now).headers⟩, .end_))
  ∧ (∀ fb, cfg.fallback_handler = some fb →
      RequestHandler.on_request ops
          { config := cfg, global := g, write_method := none, control := some ctrl }
          request now =
        .ok ({ config := cfg, global := g,
               write_method := some (.Handler (ops.on_request (fb
                 { c2 with hyperlinks := (cfg.find c2.request.method path).hyperlinks,
                           vars := (cfg.find c2.request.method path).vars }
                 { seeded_response HI cfg now with filters := { storage := s2 } })).1),
               control := none },
             (ops.on_request (fb
               { c2 with hyperlinks := (cfg.find c2.request.method path).hyperlinks,
                         vars := (cfg.find c2.request.method path).vars }
               { seeded_response HI cfg now with filters := { storage := s2 } })).2)) := by
  constructor
  · intro hfb
    constructor
    · rw [on_request_literal ops cfg g ctrl request now,
          dispatch_of_next ops cfg g ctrl request now p s2 c2 hp hm,
          route_phase_find_no_handler_no_fallback ops cfg _ c2 path _ hpath rfl hh hfb]
    · rfl
  · intro fb hfb
    rw [on_request_literal ops cfg g ctrl request now,
        dispatch_of_next ops cfg g ctrl request now p s2 c2 hp hm,
        route_phase_find_no_handler_fallback ops cfg _ c2 path _ fb hpath rfl hh hfb]

/-- C9: a request whose post-filter context URI has no extractable path (the
wildcard `*` in particular) bypasses the router: the dispatch outcome does
not depend on the router's find function, the endpoint is empty (no handler,
no variables, no hyperlinks), yet fallback substitution still applies — a
configured fallback handler is created (with empty endpoint data) and
invoked, and 404 is synthesized only when no fallback exists. -/
theorem route_phase_no_path_eq {HI : Type} (ops : HandlerOps HI)
    (cfg1 cfg2 : Config HI) (r : RawResponse) (c : RawContext)
    (hfb : cfg1.fallback_handler = cfg2.fallback_handler)
    (hpath : Uri.as_path c.uri = none) :
    route_phase ops cfg1 r c = route_phase ops cfg2 r c := by
  cases hfb2 : cfg2.fallback_handler with
  | none =>
    rw [route_phase_no_path_no_fallback ops cfg1 r c hpath (hfb.trans hfb2),
        route_phase_no_path_no_fallback ops cfg2 r c hpath hfb2]
  | some fb =>
    rw [route_phase_no_path_fallback ops cfg1 r c fb hpath (hfb.trans hfb2),
        route_phase_no_path_fallback ops cfg2 r c fb hpath hfb2]

theorem no_path_bypasses_router {HI : Type} (ops : HandlerOps HI) (cfg : Config HI)
    (g : Global) (ctrl : Control) (request : Request) (now : String) (p : ParsedUri)
    (s2 : FilterStorage) (c2 : RawContext)
    (hp : parse_target request.uri = some p)
    (hm : modify_context cfg.context_filters g FilterStorage.empty
            (initial_context g ctrl request p) = (s2, c2, .Next))
    (hpath : Uri.as_path c2.uri = none) :
    (∀ f1 f2 : String → Bytes → Endpoint HI,
       (RequestHandler.on_request ops
           { config := { cfg with find := f1 }, global := g,
             write_method := none, control := some ctrl } request now).map
           (fun r => (r.1.write_method, r.2))
         = (RequestHandler.on_request ops
             { config := { cfg with find := f2 }, global := g,
               write_method := none, control := some ctrl } request now).map
             (fun r => (r.1.write_method, r.2)))
  ∧ (cfg.fallback_handler = none →
      RequestHandler.on_request ops
          { config := cfg, global := g, write_method := none, control := some ctrl }
          request now =
        .ok ({ config := cfg, global := g,
               write_method := some (.Error (some
                 ⟨.NotFound, (seeded_response HI cfg now).headers⟩)),
               control := none },
             .write))
  ∧ (∀ fb, cfg.fallback_handler = some fb →
      RequestHandler.on_request ops
          { config := cfg, global := g, write_method := none, control := some ctrl }
          request now =
        .ok ({ config := cfg, global := g,
               write_method := some (.Handler (ops.on_request (fb
                 { c2 with hyperlinks := [], vars := Parameters.nil }
                 { seeded_response HI cfg now with filters := { storage := s2 } })).1),
               control := none },
             (ops.on_request (fb
               { c2 with hyperlinks := [], vars := Parameters.nil }
               { seeded_response HI cfg now with filters := { storage := s2 } })).2)) := by
  refine ⟨?_, ?_, ?_⟩
  · intro f1 f2
    rw [on_request_literal ops { cfg with find := f1 } g ctrl request now,
        on_request_literal ops { cfg with find := f2 } g ctrl request now,
        dispatch_of_next ops { cfg with find := f1 } g ctrl request now p s2 c2 hp hm,
        dispatch_of_next ops { cfg with find := f2 } g ctrl request now p s2 c2 hp hm,
        route_phase_no_path_eq ops { cfg with find := f1 } { cfg with find := f2 } _ c2
          rfl hpath]
    rfl
  · intro hfb
    rw [on_request_literal ops cfg g ctrl request now,
        dispatch_of_next ops cfg g ctrl request now p s2 c2 hp hm,
        route_phase_no_path_no_fallback ops cfg _ c2 hpath hfb]
  · intro fb hfb
    rw [on_request_literal ops cfg g ctrl request now,
        dispatch_of_next ops cfg g ctrl request now p s2 c2 hp hm,
        route_phase_no_path_fallback ops cfg _ c2 fb hpath hfb]

/-- C10: the scoped storage populated by the context-filter chain is
transferred into the response-filter pipeline exactly when the chain returns
Next (the created handler receives the response carrying that storage); on
Abort the populated storage is discarded — the emitted head carries the
seeded headers unchanged (status aside) and the response keeps the initial
filter storage, which is the empty map. -/
theorem filter_storage_transfer {HI : Type} (ops : HandlerOps HI) (cfg : Config HI)
    (g : Global) (ctrl : Control) (request : Request) (now : String) (p : ParsedUri)
    (hp : parse_target request.uri = some p) :
    (∀ (s2 : FilterStorage) (c2 : RawContext) (path : Bytes) (hd : HandlerDesc HI),
       modify_context cfg.context_filters g FilterStorage.empty
           (initial_context g ctrl request p) = (s2, c2, .Next) →
       Uri.as_path c2.uri = some path →
       (cfg.find c2.request.method path).handler = some hd →
       RequestHandler.on_request ops
           { config := cfg, global := g, write_method := none, control := some ctrl }
           request now =
         .ok ({ config := cfg, global := g,
                write_method := some (.Handler (ops.on_request (hd
                  { c2 with hyperlinks := (cfg.find c2.request.method path).hyperlinks,
                            vars := (cfg.find c2.request.method path).vars }
                  { seeded_response HI cfg now with filters := { storage := s2 } })).1),
                control := none },
              (ops.on_request (hd
                { c2 with hyperlinks := (cfg.find c2.request.method path).hyperlinks,
                          vars := (cfg.find c2.request.method path).vars }
                { seeded_response HI cfg now with filters := { storage := s2 } })).2))
  ∧ (∀ (s2 : FilterStorage) (c2 : RawContext) (S : StatusCode),
       modify_context cfg.context_filters g FilterStorage.empty
           (initial_context g ctrl request p) = (s2, c2, .Abort S) →
       RequestHandler.on_request ops
           { config := cfg, global := g, write_method := none, control := some ctrl }
           request now =
         .ok ({ config := cfg, global := g,
                write_method := some (.Error (some
                  ⟨S, (seeded_response HI cfg now).headers⟩)),
                control := none },
              .write))
  ∧ (seeded_response HI cfg now).filters.storage = FilterStorage.empty := by
  refine ⟨?_, ?_, rfl⟩
  · intro s2 c2 path hd hm hpath hh
    rw [on_request_literal ops cfg g ctrl request now,
        dispatch_of_next ops cfg g ctrl request now p s2 c2 hp hm,
        route_phase_find_handler ops cfg _ c2 path _ hd hpath rfl hh]
  · intro s2 c2 S hm
    rw [on_request_literal ops cfg g ctrl request now,
        dispatch_of_abort ops cfg g ctrl request now p s2 c2 S hp hm]

theorem filter_abort_halts_chain_witness :
    (parse_target getRequest.uri = some (parse_path [47, 97])) ∧
    (modify_context [nextFilter] 0 FilterStorage.empty
        (initial_context 0 { token := 0 } getRequest (parse_path [47, 97]))
      = (FilterStorage.empty,
         initial_context 0 { token := 0 } getRequest (parse_path [47, 97]), .Next)) ∧
    (abortFilter FilterStorage.empty 0
        (initial_context 0 { token := 0 } getRequest (parse_path [47, 97]))
      = (FilterStorage.empty,
         initial_context 0 { token := 0 } getRequest (parse_path [47, 97]),
         .Abort (.Code 418))) ∧
    RequestHandler.on_request unitOps
        { config := { unitConfig with
            context_filters := [nextFilter] ++ abortFilter :: [nextFilter] },
          global := 0, write_method := none, control := some { token := 0 } }
        getRequest "now" =
      .ok ({ config := { unitConfig with
               context_filters := [nextFilter] ++ abortFilter :: [nextFilter] },
             global := 0,
             write_method := some (.Error (some
               ⟨.Code 418, (seeded_response Unit unitConfig "now").headers⟩)),
             control := none },
           .write) :=
  ⟨rfl, rfl, rfl,
   (filter_abort_halts_chain unitOps unitConfig 0 { token := 0 } getRequest "now"
       (parse_path [47, 97]) rfl).1
     [nextFilter] [nextFilter] abortFilter FilterStorage.empty FilterStorage.empty
     (initial_context 0 { token := 0 } getRequest (parse_path [47, 97]))
     (initial_context 0 { token := 0 } getRequest (parse_path [47, 97]))
     (.Code 418) rfl rfl⟩

theorem not_found_or_fallback_witness :
    (Uri.as_path (initial_context 0 { token := 0 } getRequest (parse_path [47, 97])).uri
       = some [47, 97]) ∧
    ((unitConfig.find "GET" [47, 97]).handler = none) ∧
    (RequestHandler.on_request unitOps
        { config := unitConfig, global := 0, write_method := none,
          control := some { token := 0 } } getRequest "now" =
      .ok ({ config := unitConfig, global := 0,
             write_method := some (.Error (some
               ⟨.NotFound, (seeded_response Unit unitConfig "now").headers⟩)),
             control := none },
           .write)) ∧
    (RequestHandler.on_request unitOps
        { config := fallbackConfig, global := 0, write_method := none,
          control := some { token := 0 } } getRequest "now" =
      .ok ({ config := fallbackConfig, global := 0,
             write_method := some (.Handler ()), control := none },
           .read)) :=
  ⟨rfl, rfl,
   ((not_found_or_fallback unitOps unitConfig 0 { token := 0 } getRequest "now"
       (parse_path [47, 97]) FilterStorage.empty
       (initial_context 0 { token := 0 } getRequest (parse_path [47, 97])) [47, 97]
       rfl rfl rfl rfl).1 rfl).1,
   (not_found_or_fallback unitOps fallbackConfig 0 { token := 0 } getRequest "now"
       (parse_path [47, 97]) FilterStorage.empty
       (initial_context 0 { token := 0 } getRequest (parse_path [47, 97])) [47, 97]
       rfl rfl rfl rfl).2 (fun _ _ => ()) rfl⟩

theorem no_path_bypasses_router_witness :
    ((RequestHandler.on_request unitOps
        { config := { unitConfig with find := fun _ _ => emptyEndpoint }, global := 0,
          write_method := none, control := some { token := 0 } } starRequest "now").map
        (fun r => (r.1.write_method, r.2))
      = (RequestHandler.on_request unitOps
          { config := { unitConfig with
              find := fun _ _ => { handler := some (fun _ _ => ()),
                                   vars := Parameters.nil, hyperlinks := [7] } },
            global := 0, write_method := none, control := some { token := 0 } }
          starRequest "now").map
          (fun r => (r.1.write_method, r.2))) ∧
    (RequestHandler.on_request unitOps
        { config := unitConfig, global := 0, write_method := none,
          control := some { token := 0 } } starRequest "now" =
      .ok ({ config := unitConfig, global := 0,
             write_method := some (.Error (some
               ⟨.NotFound, (seeded_response Unit unitConfig "now").headers⟩)),
             control := none },
           .write)) ∧
    (RequestHandler.on_request unitOps
        { config := fallbackConfig, global := 0, write_method := none,
          control := some { token := 0 } } starRequest "now" =
      .ok ({ config := fallbackConfig, global := 0,
             write_method := some (.Handler ()), control := none },
           .read)) :=
  ⟨(no_path_bypasses_router unitOps unitConfig 0 { token := 0 } starRequest "now"
      { host := none, uri := .Asterisk, query := Parameters.nil, fragment := none }
      FilterStorage.empty
      (initial_context 0 { token := 0 } starRequest
        { host := none, uri := .Asterisk, query := Parameters.nil, fragment := none })
      rfl rfl rfl).1
     (fun _ _ => emptyEndpoint)
     (fun _ _ => { handler := some (fun _ _ => ()),
                   vars := Parameters.nil, hyperlinks := [7] }),
   (no_path_bypasses_router unitOps unitConfig 0 { token := 0 } starRequest "now"
      { host := none, uri := .Asterisk, query := Parameters.nil, fragment := none }
      FilterStorage.empty
      (initial_context 0 { token := 0 } starRequest
        { host := none, uri := .Asterisk, query := Parameters.nil, fragment := none })
      rfl rfl rfl).2.1 rfl,
   (no_path_bypasses_router unitOps fallbackConfig 0 { token := 0 } starRequest "now"
      { host := none, uri := .Asterisk, query := Parameters.nil, fragment := none }
      FilterStorage.empty
      (initial_context 0 { token := 0 } starRequest
        { host := none, uri := .Asterisk, query := Parameters.nil, fragment := none })
      rfl rfl rfl).2.2 (fun _ _ => ()) rfl⟩

theorem filter_storage_transfer_witness :
    ((handlerConfig.find "GET" [47, 97]).handler = some (fun _ _ => ())) ∧
    (RequestHandler.on_request unitOps
        { config := handlerConfig, global := 0, write_method := none,
          control := some { token := 0 } } getRequest "now" =
      .ok ({ config := handlerConfig, global := 0,
             write_method := some (.Handler ()), control := none },
           .read)) ∧
    (modify_context abortConfig.context_filters 0 FilterStorage.empty
        (initial_context 0 { token := 0 } getRequest (parse_path [47, 97]))
      = (FilterStorage.empty,
         initial_context 0 { token := 0 } getRequest (parse_path [47, 97]),
         .Abort (.Code 418))) ∧
    (RequestHandler.on_request unitOps
        { config := abortConfig, global := 0, write_method := none,
          control := some { token := 0 } } getRequest "now" =
      .ok ({ config := abortConfig, global := 0,
             write_method := some (.Error (some
               ⟨.Code 418, (seeded_response Unit unitConfig "now").headers⟩)),
             control := none },
           .write)) ∧
    (seeded_response Unit unitConfig "now").filters.storage = FilterStorage.empty :=
  ⟨rfl,
   (filter_storage_transfer unitOps handlerConfig 0 { token := 0 } getRequest "now"
       (parse_path [47, 97]) rfl).1
     FilterStorage.empty
     (initial_context 0 { token := 0 } getRequest (parse_path [47, 97]))
     [47, 97] (fun _ _ => ()) rfl rfl rfl,
   rfl,
   (filter_storage_transfer unitOps abortConfig 0 { token := 0 } getRequest "now"
       (parse_path [47, 97]) rfl).2.1
     FilterStorage.empty
     (initial_context 0 { token := 0 } getRequest (parse_path [47, 97]))
     (.Code 418) rfl,
   (filter_storage_transfer unitOps unitConfig 0 { token := 0 } getRequest "now"
       (parse_path [47, 97]) rfl).2.2⟩

/-- C2 counterexample: a URL with no query whose fragment is `?` (byte 63) is
a legitimate pair of equivalent components (no raw `?`/`#` in the path
components, no query), yet its origin-form serialization `#?` parses
differently: `parse_path` takes the `?` inside the fragment for a query
separator, yielding path `#`, a one-entry query and no fragment, while
`parse_url` yields path `/`, no query and fragment `?`. -/
theorem parse_equivalence_counterexample :
    ((∀ c ∈ ([] : List Bytes), (63 : Nat) ∉ c ∧ (35 : Nat) ∉ c) ∧
     (∀ qs : Bytes, (none : Option Bytes) = some qs → (35 : Nat) ∉ qs)) ∧
    (parse_path (origin_form [] none (some [63]))).fragment = none ∧
    (parse_url { scheme_data := .Relative [] none [] none, fragment := some [63] }).fragment
      = some [63] ∧
    ¬ ((parse_path (origin_form [] none (some [63]))).uri
         = (parse_url { scheme_data := .Relative [] none [] none,
                        fragment := some [63] }).uri ∧
       (parse_path (origin_form [] none (some [63]))).query
         = (parse_url { scheme_data := .Relative [] none [] none,
                        fragment := some [63] }).query ∧
       (parse_path (origin_form [] none (some [63]))).fragment
         = (parse_url { scheme_data := .Relative [] none [] none,
                        fragment := some [63] }).fragment) :=
  ⟨⟨by simp, fun _ h => nomatch h⟩, by decide, by decide, by decide⟩

/-- C2 (amended): for every target with equivalent path, query and fragment
components — encoded path components free of raw `?` and `#`, a raw query
free of raw `#`, and, when the query is absent, a fragment free of `?` —
parsing the origin-form serialization with `parse_path` and parsing the
absolute URL with `parse_url` produce the same path (leading `/`,
percent-decoded), the same query mapping, and the same optional fragment.
The extra fragment condition is forced by the counterexample: with no query
present, a raw `?` inside the fragment is taken by `parse_path` for a query
separator. -/
theorem parse_path_url_equiv (host : Bytes) (port : Option Nat)
    (comps : List Bytes) (q : Option Bytes) (f : Option Bytes)
    (hcomps : ∀ c ∈ comps, (63 : Nat) ∉ c ∧ (35 : Nat) ∉ c)
    (hq : ∀ qs, q = some qs → (35 : Nat) ∉ qs)
    (hf : q = none → ∀ fs, f = some fs → (63 : Nat) ∉ fs) :
    (parse_path (origin_form comps q f)).uri
        = (parse_url { scheme_data := .Relative host port comps q, fragment := f }).uri
  ∧ (parse_path (origin_form comps q f)).query
        = (parse_url { scheme_data := .Relative host port comps q, fragment := f }).query
  ∧ (parse_path (origin_form comps q f)).fragment
        = (parse_url { scheme_data := .Relative host port comps q, fragment := f }).fragment := by
  have h63P : (63 : Nat) ∉ comps.foldl (fun a c => a ++ 47 :: c) [] :=
    not_mem_join (by decide) comps [] (by simp) (fun c hc => (hcomps c hc).1)
  have h35P : (35 : Nat) ∉ comps.foldl (fun a c => a ++ 47 :: c) [] :=
    not_mem_join (by decide) comps [] (by simp) (fun c hc => (hcomps c hc).2)
  have hjoin := percent_decode_join comps []
  cases q with
  | some qs =>
    have h35q : (35 : Nat) ∉ qs := hq qs rfl
    cases f with
    | some fs =>
      have hof : origin_form comps (some qs) (some fs)
          = comps.foldl (fun a c => a ++ 47 :: c) [] ++ 63 :: (qs ++ 35 :: fs) := by
        simp [origin_form]
      have hsp : split_first 63 (origin_form comps (some qs) (some fs))
          = some (comps.foldl (fun a c => a ++ 47 :: c) [], qs ++ 35 :: fs) := by
        rw [hof]; exact split_first_append h63P _
      have hfr : parse_fragment (qs ++ 35 :: fs) = (qs, some fs) := by
        simp [parse_fragment, split_first_append h35q]
      simp [parse_path, hsp, hfr, parse_url, Url.path, Url.query_pairs, Url.query,
            Url.host_port, parse_parameters, hjoin, percent_decode_nil]
    | none =>
      have hof : origin_form comps (some qs) none
          = comps.foldl (fun a c => a ++ 47 :: c) [] ++ 63 :: qs := by
        simp [origin_form]
      have hsp : split_first 63 (origin_form comps (some qs) none)
          = some (comps.foldl (fun a c => a ++ 47 :: c) [], qs) := by
        rw [hof]; exact split_first_append h63P _
      have hfr : parse_fragment qs = (qs, none) := by
        simp [parse_fragment, split_first_of_not_mem h35q]
      simp [parse_path, hsp, hfr, parse_url, Url.path, Url.query_pairs, Url.query,
            Url.host_port, parse_parameters, hjoin, percent_decode_nil]
  | none =>
    cases f with
    | some fs =>
      have h63f : (63 : Nat) ∉ fs := hf rfl fs rfl
      have hof : origin_form comps none (some fs)
          = comps.foldl (fun a c => a ++ 47 :: c) [] ++ 35 :: fs := by
        simp [origin_form]
      have hsp : split_first 63
          (comps.foldl (fun a c => a ++ 47 :: c) [] ++ 35 :: fs) = none := by
        apply split_first_of_not_mem
        intro hm
        rcases List.mem_append.mp hm with h1 | h2
        · exact h63P h1
        · rcases List.mem_cons.mp h2 with h3 | h4
          · exact absurd h3 (by decide)
          · exact h63f h4
      have hfr : parse_fragment (comps.foldl (fun a c => a ++ 47 :: c) [] ++ 35 :: fs)
          = (comps.foldl (fun a c => a ++ 47 :: c) [], some fs) := by
        simp [parse_fragment, split_first_append h35P]
      simp [parse_path, hsp, hof, hfr, parse_url, Url.path, Url.query_pairs, Url.query,
            Url.host_port, hjoin, percent_decode_nil, collect_pairs, Parameters.nil]
    | none =>
      have hof : origin_form comps none none
          = comps.foldl (fun a c => a ++ 47 :: c) [] := by
        simp [origin_form]
      have hsp : split_first 63 (comps.foldl (fun a c => a ++ 47 :: c) [] : Bytes) = none :=
        split_first_of_not_mem h63P
      have hfr : parse_fragment (comps.foldl (fun a c => a ++ 47 :: c) [])
          = (comps.foldl (fun a c => a ++ 47 :: c) [], none) := by
        simp [parse_fragment, split_first_of_not_mem h35P]
      simp [parse_path, hsp, hof, hfr, parse_url, Url.path, Url.query_pairs, Url.query,
            Url.host_port, hjoin, percent_decode_nil, collect_pairs, Parameters.nil]

theorem parse_path_url_equiv_witness :
    (∀ c ∈ [[97]], (63 : Nat) ∉ c ∧ (35 : Nat) ∉ c) ∧
    (parse_path (origin_form [[97]] (some [98, 61, 99]) (some [100]))).uri
      = (parse_url { scheme_data := .Relative [101] none [[97]] (some [98, 61, 99]),
                     fragment := some [100] }).uri ∧
    (parse_path (origin_form [[97]] (some [98, 61, 99]) (some [100]))).query
      = (parse_url { scheme_data := .Relative [101] none [[97]] (some [98, 61, 99]),
                     fragment := some [100] }).query ∧
    (parse_path (origin_form [[97]] (some [98, 61, 99]) (some [100]))).fragment
      = (parse_url { scheme_data := .Relative [101] none [[97]] (some [98, 61, 99]),
                     fragment := some [100] }).fragment := by
  have h := parse_path_url_equiv [101] none [[97]] (some [98, 61, 99]) (some [100])
    (by decide)
    (by intro qs hqs; cases hqs; decide)
    (fun hn => nomatch hn)
  exact ⟨by decide, h.1, h.2.1, h.2.2⟩

end Rustful
